import Mathlib

/-
Verification of the aws-inventory per-service enumeration helpers.

The repository enumerates AWS resources by calling list/describe/tag APIs.
We shallowly embed the post-pass logic of the per-service inventory
functions (res/analytics.py, res/db.py, res/integration.py, res/network.py)
and the utility functions (res/utils.py).  Network calls are modelled as
oracle functions passed in as parameters; the AWS response records are
modelled as structures holding exactly the fields the code touches plus a
payload field standing in for all the fields the code never reads or
writes.  The generic enumerator glob.get_inventory is not part of the
provided sources; its output (a list of records, each tagged with the
RegionName that produced it) is taken as an input of the per-service
functions, following the spec.
-/

/-- A tag, as returned by the AWS tagging APIs (a Key/Value pair). -/
structure AwsTag where
  Key : String
  Value : String
deriving DecidableEq

/-- Modelled from the spec: utils.chunks_list is not under src (only its
callers are).  Per the spec, chunked tag lookups split an input of N items
into consecutive chunks of a fixed size K, so that exactly ceil(N/K)
tagging calls are issued and every item appears in exactly one chunk.
The fuel argument bounds the recursion; each step consumes at least one
item when 0 < k, so fuel = length of the list suffices. -/
def chunks_go (k : Nat) : Nat → List α → List (List α)
  | 0, _ => []
  | _, [] => []
  | fuel + 1, l => l.take k :: chunks_go k fuel (l.drop k)

/-- Modelled from the spec: splits a list into consecutive chunks of size
k (the last chunk may be shorter).  Returns no chunk for k = 0. -/
def chunks_list (l : List α) (k : Nat) : List (List α) :=
  if k = 0 then [] else chunks_go k l.length l

/-- Modelled from the spec: utils.resources_by_region is not under src
(only its callers are).  Per the spec, the tag post-passes group listed
items by region.  The keys are the RegionName values in first-appearance
order (Python dict insertion order). -/
def region_keys (regionOf : α → String) (records : List α) : List String :=
  records.foldl (fun acc x => if acc.contains (regionOf x) then acc else acc ++ [regionOf x]) []

/-- Modelled from the spec: groups listed items by their region name,
regions in first-appearance order, record order preserved inside each
group. -/
def resources_by_region (regionOf : α → String) (records : List α) : List (String × List α) :=
  (region_keys regionOf records).map (fun r => (r, records.filter (fun x => regionOf x == r)))

/- Generic list lemmas used by several of the claim proofs. -/

theorem chunks_go_join (k : Nat) (hk : 0 < k) :
    ∀ (fuel : Nat) (l : List α), l.length ≤ fuel → (chunks_go k fuel l).flatten = l := by
  intro fuel
  induction fuel with
  | zero =>
    intro l hl
    have : l = [] := List.length_eq_zero.mp (Nat.le_zero.mp hl)
    subst this
    simp [chunks_go]
  | succ n ih =>
    intro l hl
    cases l with
    | nil => simp [chunks_go]
    | cons a t =>
      have hdrop : ((a :: t).drop k).length ≤ n := by
        rw [List.length_drop]
        simp only [List.length_cons] at hl ⊢
        omega
      simp only [chunks_go, List.flatten_cons, ih _ hdrop]
      exact List.take_append_drop k (a :: t)

theorem chunks_list_join (l : List α) (k : Nat) (hk : 0 < k) :
    (chunks_list l k).flatten = l := by
  unfold chunks_list
  rw [if_neg (Nat.pos_iff_ne_zero.mp hk)]
  exact chunks_go_join k hk l.length l le_rfl

theorem chunks_go_length (k : Nat) (hk : 0 < k) :
    ∀ (fuel : Nat) (l : List α), l.length ≤ fuel →
      (chunks_go k fuel l).length = (l.length + k - 1) / k := by
  intro fuel
  induction fuel with
  | zero =>
    intro l hl
    have : l = [] := List.length_eq_zero.mp (Nat.le_zero.mp hl)
    subst this
    simp only [chunks_go, List.length_nil, List.length]
    exact (Nat.div_eq_of_lt (by omega)).symm
  | succ n ih =>
    intro l hl
    cases l with
    | nil =>
      simp only [chunks_go, List.length_nil, List.length]
      exact (Nat.div_eq_of_lt (by omega)).symm
    | cons a t =>
      have hdrop : ((a :: t).drop k).length ≤ n := by
        rw [List.length_drop]
        simp only [List.length_cons] at hl ⊢
        omega
      simp only [chunks_go, List.length_cons, ih _ hdrop, List.length_drop, List.length_cons]
      rcases Nat.lt_or_ge (t.length + 1) k with hlt | hge
      · have h1 : t.length + 1 - k = 0 := by omega
        have h2 : t.length + 1 + k - 1 = t.length + k := by omega
        rw [h1, h2]
        have h3 : (0 + k - 1) / k = 0 := Nat.div_eq_of_lt (by omega)
        have h4 : (t.length + k) / k = t.length / k + 1 := Nat.add_div_right _ hk
        have h5 : t.length / k = 0 := Nat.div_eq_of_lt (by omega)
        rw [h3, h4, h5]
      · have h1 : t.length + 1 - k + k - 1 = t.length := by omega
        have h2 : t.length + 1 + k - 1 = t.length + k := by omega
        rw [h1, h2]
        have h3 : (t.length + k) / k = t.length / k + 1 := Nat.add_div_right _ hk
        rw [h3]

theorem chunks_list_length (l : List α) (k : Nat) (hk : 0 < k) :
    (chunks_list l k).length = (l.length + k - 1) / k := by
  unfold chunks_list
  rw [if_neg (Nat.pos_iff_ne_zero.mp hk)]
  exact chunks_go_length k hk l.length l le_rfl

theorem foldl_append_flatten {γ α : Type} (f : γ → List α) (gs : List γ) :
    ∀ init : List α, gs.foldl (fun acc g => acc ++ f g) init = init ++ (gs.map f).flatten := by
  induction gs with
  | nil => intro init; simp
  | cons g gs ih => intro init; simp [ih, List.append_assoc]

theorem foldl_append_pair {γ α β : Type} (f : γ → List α) (g : γ → List β) (gs : List γ) :
    ∀ init : List α × List β,
      gs.foldl (fun acc x => (acc.1 ++ f x, acc.2 ++ g x)) init
        = (init.1 ++ (gs.map f).flatten, init.2 ++ (gs.map g).flatten) := by
  induction gs with
  | nil => intro init; simp
  | cons x xs ih => intro init; simp [ih, List.append_assoc]

theorem flatten_map_singleton {γ β : Type} (h : γ → β) (gs : List γ) :
    (gs.map (fun x => [h x])).flatten = gs.map h := by
  induction gs with
  | nil => rfl
  | cons x xs ih => simp [ih]

theorem foldl_map_get_opt {α β : Type} (step : β → α → α) (rs : List β) :
    ∀ (l : List α) (i : Nat),
      (rs.foldl (fun acc r => acc.map (step r)) l)[i]? =
        (l[i]?).map (fun x => rs.foldl (fun x r => step r x) x) := by
  induction rs with
  | nil => intro l i; simp
  | cons r rs ih =>
    intro l i
    simp only [List.foldl_cons, ih, List.getElem?_map]
    cases l[i]? <;> simp

/-- The element-wise effect of a tag-correlation pass: fold the tag
responses over one record, updating it whenever the join key of the record
equals the correlating key of the response. -/
def tag_fold (key : α → String) (rkey : β → String) (upd : α → β → α)
    (rs : List β) (x : α) : α :=
  rs.foldl (fun x r => if key x = rkey r then upd x r else x) x

theorem tag_fold_cases {α β : Type} (key : α → String) (rkey : β → String)
    (upd : α → β → α)
    (hkey : ∀ x r, key (upd x r) = key x)
    (hupd : ∀ x r r', upd (upd x r) r' = upd x r') (rs : List β) :
    ∀ x : α,
      (tag_fold key rkey upd rs x = x
        ∨ ∃ r ∈ rs, key x = rkey r ∧ tag_fold key rkey upd rs x = upd x r)
      ∧ ((∀ r ∈ rs, key x ≠ rkey r) → tag_fold key rkey upd rs x = x) := by
  induction rs with
  | nil => intro x; exact ⟨Or.inl rfl, fun _ => rfl⟩
  | cons r rs ih =>
    intro x
    constructor
    · by_cases h : key x = rkey r
      · have hfold : tag_fold key rkey upd (r :: rs) x = tag_fold key rkey upd rs (upd x r) := by
          simp [tag_fold, List.foldl_cons, if_pos h]
        rcases (ih (upd x r)).1 with h1 | ⟨r', hr', hk', he'⟩
        · exact Or.inr ⟨r, List.mem_cons_self r rs, h, by rw [hfold, h1]⟩
        · refine Or.inr ⟨r', List.mem_cons_of_mem r hr', ?_, ?_⟩
          · rw [← hkey x r]; exact hk'
          · rw [hfold, he', hupd]
      · have hfold : tag_fold key rkey upd (r :: rs) x = tag_fold key rkey upd rs x := by
          simp [tag_fold, List.foldl_cons, if_neg h]
        rcases (ih x).1 with h1 | ⟨r', hr', hk', he'⟩
        · exact Or.inl (by rw [hfold, h1])
        · exact Or.inr ⟨r', List.mem_cons_of_mem r hr', hk', by rw [hfold, he']⟩
    · intro hnone
      have h := hnone r (List.mem_cons_self r rs)
      have hfold : tag_fold key rkey upd (r :: rs) x = tag_fold key rkey upd rs x := by
        simp [tag_fold, List.foldl_cons, if_neg h]
      rw [hfold]
      exact (ih x).2 (fun r' hr' => hnone r' (List.mem_cons_of_mem r hr'))

/-
Region resolver: res/utils.py, get_aws_regions.  The color palette read
from color.json and the EC2 region listing are inputs; the per-region
describe_availability_zones call is an oracle from region name to its
availability zones.
-/

/-- One entry of the describe_regions response, with the fields the code
touches: RegionName and OptInStatus from the API, plus the color and
zones keys the loop may add. -/
structure RegionInfo where
  RegionName : String
  OptInStatus : String
  color : Option String := none
  zones : Option (List String) := none
deriving DecidableEq

/-- Body of the zip loop in get_aws_regions (utils.py lines 48-57): the
region is given the paired color, and, when its OptInStatus is not
"not-opted-in", its availability zones are fetched and attached. -/
def tag_color_zone (describe_zones : String → List String) (color : String)
    (region : RegionInfo) : RegionInfo :=
  let region := { region with color := some color }
  if region.OptInStatus != "not-opted-in" then
    { region with zones := some (describe_zones region.RegionName) }
  else region

/-- The zip loop of get_aws_regions: pairs colors with regions
positionally; regions beyond the palette are left untouched, colors
beyond the region list are ignored (Python zip truncates). -/
def zip_color_regions (describe_zones : String → List String) :
    List String → List RegionInfo → List RegionInfo
  | _, [] => []
  | [], rs => rs
  | c :: cs, r :: rs =>
      tag_color_zone describe_zones c r :: zip_color_regions describe_zones cs rs

/-- res/utils.py get_aws_regions: reads the palette, lists the regions,
then runs the zip loop and returns the (mutated) region list. -/
def get_aws_regions (colors : List String) (region_list : List RegionInfo)
    (describe_zones : String → List String) : List RegionInfo :=
  zip_color_regions describe_zones colors region_list

theorem zip_color_regions_length (dz : String → List String) :
    ∀ (cs : List String) (rs : List RegionInfo),
      (zip_color_regions dz cs rs).length = rs.length := by
  intro cs
  induction cs with
  | nil => intro rs; cases rs <;> rfl
  | cons c cs ih =>
    intro rs
    cases rs with
    | nil => rfl
    | cons r rs => simp [zip_color_regions, ih]

theorem zip_color_regions_get_both (dz : String → List String) :
    ∀ (cs : List String) (rs : List RegionInfo) (i : Nat) (c : String) (r : RegionInfo),
      cs[i]? = some c → rs[i]? = some r →
      (zip_color_regions dz cs rs)[i]? = some (tag_color_zone dz c r) := by
  intro cs
  induction cs with
  | nil => intro rs i c r hc; simp at hc
  | cons c0 cs ih =>
    intro rs i c r hc hr
    cases rs with
    | nil => simp at hr
    | cons r0 rs =>
      cases i with
      | zero =>
        simp at hc hr
        subst hc; subst hr
        simp [zip_color_regions]
      | succ i =>
        simp only [List.getElem?_cons_succ] at hc hr
        simpa [zip_color_regions] using ih rs i c r hc hr

theorem zip_color_regions_get_over (dz : String → List String) :
    ∀ (cs : List String) (rs : List RegionInfo) (i : Nat),
      cs.length ≤ i → (zip_color_regions dz cs rs)[i]? = rs[i]? := by
  intro cs
  induction cs with
  | nil => intro rs i _; cases rs <;> rfl
  | cons c0 cs ih =>
    intro rs i hi
    cases rs with
    | nil => rfl
    | cons r0 rs =>
      cases i with
      | zero => simp at hi
      | succ i =>
        simp only [List.length_cons] at hi
        simpa [zip_color_regions] using ih rs i (by omega)

theorem tag_color_zone_color (dz : String → List String) (c : String) (r : RegionInfo) :
    (tag_color_zone dz c r).color = some c := by
  simp only [tag_color_zone]
  split <;> rfl

theorem tag_color_zone_name (dz : String → List String) (c : String) (r : RegionInfo) :
    (tag_color_zone dz c r).RegionName = r.RegionName := by
  simp only [tag_color_zone]
  split <;> rfl

theorem tag_color_zone_zones (dz : String → List String) (c : String) (r : RegionInfo) :
    (tag_color_zone dz c r).zones =
      if r.OptInStatus != "not-opted-in" then some (dz r.RegionName) else r.zones := by
  simp only [tag_color_zone]
  split <;> simp_all

/-- C5: get_aws_regions assigns display colors by positional pairing: for
every index below min(palette length, region count) the i-th region in API
order receives the i-th palette color; with a palette shorter than the
region list the call is total and the regions beyond the palette are
returned unchanged, hence without a color. -/
theorem get_aws_regions_color_pairing (colors : List String)
    (region_list : List RegionInfo) (dz : String → List String) :
    (get_aws_regions colors region_list dz).length = region_list.length
    ∧ (∀ (i : Nat) (c : String) (r : RegionInfo), colors[i]? = some c → region_list[i]? = some r →
        (get_aws_regions colors region_list dz)[i]? = some (tag_color_zone dz c r)
        ∧ (tag_color_zone dz c r).color = some c
        ∧ (tag_color_zone dz c r).RegionName = r.RegionName)
    ∧ (∀ i : Nat, colors.length ≤ i →
        (get_aws_regions colors region_list dz)[i]? = region_list[i]?) := by
  refine ⟨zip_color_regions_length dz colors region_list, ?_, ?_⟩
  · intro i c r hc hr
    exact ⟨zip_color_regions_get_both dz colors region_list i c r hc hr,
      tag_color_zone_color dz c r, tag_color_zone_name dz c r⟩
  · intro i hi
    exact zip_color_regions_get_over dz colors region_list i hi

/-- Sample palette and regions for the witnesses. -/
def palette0 : List String := ["red", "blue"]

def regA : RegionInfo := { RegionName := "us-east-1", OptInStatus := "opt-in-not-required" }

def regB : RegionInfo := { RegionName := "us-west-2", OptInStatus := "opt-in-not-required" }

def regC : RegionInfo := { RegionName := "ap-east-1", OptInStatus := "not-opted-in" }

def regD : RegionInfo := { RegionName := "eu-west-3", OptInStatus := "opt-in-not-required" }

def dz0 : String → List String := fun r => [r ++ "a", r ++ "b"]

theorem get_aws_regions_color_pairing_witness :
    (get_aws_regions palette0 [regA, regB, regC, regD] dz0).length = 4
    ∧ (get_aws_regions palette0 [regA, regB, regC, regD] dz0)[0]?
        = some (tag_color_zone dz0 "red" regA)
    ∧ (tag_color_zone dz0 "red" regA).color = some "red"
    ∧ (get_aws_regions palette0 [regA, regB, regC, regD] dz0)[3]? = some regD := by
  have h := get_aws_regions_color_pairing palette0 [regA, regB, regC, regD] dz0
  refine ⟨?_, ?_, ?_, ?_⟩
  · rw [h.1]; rfl
  · exact (h.2.1 0 "red" regA rfl rfl).1
  · exact (h.2.1 0 "red" regA rfl rfl).2.1
  · rw [h.2.2 3 (by decide)]; rfl

/-- C9: in get_aws_regions the availability-zone lookup runs inside the
color zip loop, so the zones of a region are fetched iff its position is below
the palette length and its OptInStatus is not "not-opted-in"; a region
beyond the palette is returned exactly as listed, with neither a color nor
a zones field. -/
theorem get_aws_regions_zone_lookup (colors : List String)
    (region_list : List RegionInfo) (dz : String → List String)
    (i : Nat) (r : RegionInfo) (hr : region_list[i]? = some r)
    (_hc : r.color = none) (hz : r.zones = none) :
    ∃ o, (get_aws_regions colors region_list dz)[i]? = some o
      ∧ o.zones = (if i < colors.length ∧ r.OptInStatus ≠ "not-opted-in"
          then some (dz r.RegionName) else none)
      ∧ (colors.length ≤ i → o = r)
      ∧ (∀ c, colors[i]? = some c → o.color = some c) := by
  rcases Nat.lt_or_ge i colors.length with hlt | hge
  · obtain ⟨c, hcc⟩ : ∃ c, colors[i]? = some c :=
      ⟨colors[i], List.getElem?_eq_getElem hlt⟩
    refine ⟨tag_color_zone dz c r,
      zip_color_regions_get_both dz colors region_list i c r hcc hr, ?_, ?_, ?_⟩
    · rw [tag_color_zone_zones dz c r, hz]
      by_cases hopt : r.OptInStatus = "not-opted-in"
      · rw [if_neg (by simp [hopt]), if_neg (by simp [hopt])]
      · rw [if_pos (by simp [hopt]), if_pos ⟨hlt, hopt⟩]
    · intro hge'; omega
    · intro c' hcc'
      rw [hcc] at hcc'
      cases hcc'
      exact tag_color_zone_color dz c r
  · refine ⟨r, ?_, ?_, fun _ => rfl, ?_⟩
    · unfold get_aws_regions
      rw [zip_color_regions_get_over dz colors region_list i hge, hr]
    · rw [hz, if_neg (by omega)]
    · intro c hcc
      rw [List.getElem?_eq_none hge] at hcc
      cases hcc

theorem get_aws_regions_zone_lookup_witness :
    (∃ o, (get_aws_regions palette0 [regA, regC, regB] dz0)[1]? = some o
       ∧ o.zones = none)
    ∧ (∃ o, (get_aws_regions palette0 [regA, regC, regB] dz0)[2]? = some o ∧ o = regB)
    ∧ (∃ o, (get_aws_regions palette0 [regA, regC, regB] dz0)[0]? = some o
       ∧ o.zones = some (dz0 "us-east-1")) := by
  refine ⟨?_, ?_, ?_⟩
  · obtain ⟨o, h1, h2, -, -⟩ :=
      get_aws_regions_zone_lookup palette0 [regA, regC, regB] dz0 1 regC rfl rfl rfl
    refine ⟨o, h1, ?_⟩
    rw [h2, if_neg (by decide)]
  · obtain ⟨o, h1, -, h3, -⟩ :=
      get_aws_regions_zone_lookup palette0 [regA, regC, regB] dz0 2 regB rfl rfl rfl
    exact ⟨o, h1, h3 (by decide)⟩
  · obtain ⟨o, h1, h2, -, -⟩ :=
      get_aws_regions_zone_lookup palette0 [regA, regC, regB] dz0 0 regA rfl rfl rfl
    refine ⟨o, h1, ?_⟩
    rw [h2, if_pos (by decide)]
    rfl

/-
Progress counter: res/utils.py, progress.  The process-wide mutable state
of the config module is modelled explicitly.
-/

/-- The process-wide mutable state of the config module around the
progress counter: the resolved region list, the region count, and the two
counters nb_units_done / nb_units_todo. -/
structure ConfigState where
  regions : List RegionInfo
  nb_regions : Nat
  nb_units_done : Nat
  nb_units_todo : Nat
deriving DecidableEq

/-- res/utils.py progress: a call with the "global" sentinel advances
nb_units_done by nb_regions, any other region name advances it by 1;
no other field is written. -/
def progress (region_name : String) (cfg : ConfigState) : ConfigState :=
  if region_name == "global" then
    { cfg with nb_units_done := cfg.nb_units_done + cfg.nb_regions }
  else
    { cfg with nb_units_done := cfg.nb_units_done + 1 }

/-- C6: progress modifies only the units-done counter: units-total, the
region count and the region list are unchanged; a named (non-"global")
region advances units-done by exactly 1 and the "global" sentinel advances
it by the number of regions. -/
theorem progress_frame (region_name : String) (cfg : ConfigState) :
    (progress region_name cfg).nb_units_todo = cfg.nb_units_todo
    ∧ (progress region_name cfg).nb_regions = cfg.nb_regions
    ∧ (progress region_name cfg).regions = cfg.regions
    ∧ (region_name = "global" →
        (progress region_name cfg).nb_units_done = cfg.nb_units_done + cfg.nb_regions)
    ∧ (region_name ≠ "global" →
        (progress region_name cfg).nb_units_done = cfg.nb_units_done + 1) := by
  by_cases h : region_name = "global"
  · simp [progress, h]
  · simp [progress, h]

def cfg0 : ConfigState :=
  { regions := [regA, regB], nb_regions := 2, nb_units_done := 5, nb_units_todo := 12 }

theorem progress_frame_witness :
    (progress "global" cfg0).nb_units_done = cfg0.nb_units_done + cfg0.nb_regions
    ∧ (progress "us-east-1" cfg0).nb_units_done = cfg0.nb_units_done + 1
    ∧ (progress "us-east-1" cfg0).nb_units_todo = cfg0.nb_units_todo
    ∧ (progress "global" cfg0).regions = cfg0.regions :=
  ⟨(progress_frame "global" cfg0).2.2.2.1 rfl,
   (progress_frame "us-east-1" cfg0).2.2.2.2 (by decide),
   (progress_frame "us-east-1" cfg0).1,
   (progress_frame "global" cfg0).2.2.1⟩

/-
Session provider: res/utils.py, create_session.  boto3.Session and
sts.assume_role are modelled as oracles; a boto3 session is represented by
how it was built (profile, or assumed-role credentials plus the JSON file
cache path configured on the botocore session).
-/

/-- The exceptions the create_session code distinguishes: ProfileNotFound
is caught, every other failure propagates. -/
inductive SessionError where
  | profileNotFound
  | otherError (msg : String)
deriving DecidableEq

/-- The Credentials part of an sts assume_role response. -/
structure StsCredentials where
  AccessKeyId : String
  SecretAccessKey : String
  SessionToken : String
deriving DecidableEq

/-- A boto3 session, identified by how create_session built it. -/
inductive BotoSession where
  | fromProfile (profile_name : String)
  | fromAssumedRole (cache_path : String) (aws_access_key_id : String)
      (aws_secret_access_key : String) (aws_session_token : String)
deriving DecidableEq

/-- res/utils.py create_session: try the named profile; on ProfileNotFound
assume the role arn:aws:iam::{account_id}:role/{role} with a JSON file
cache at {home}/.cache and build the session from the returned temporary
credentials; any other failure, and any failure of the role assumption,
propagates. -/
def create_session (account_id role home : String)
    (profile_session : String → Except SessionError Unit)
    (assume_role : String → String → Except SessionError StsCredentials) :
    Except SessionError BotoSession :=
  match profile_session role with
  | .ok _ => .ok (.fromProfile role)
  | .error .profileNotFound =>
      match assume_role ("arn:aws:iam::" ++ account_id ++ ":role/" ++ role)
          ("AssumeRoleSession" ++ account_id) with
      | .ok creds =>
          .ok (.fromAssumedRole (home ++ "/.cache")
            creds.AccessKeyId creds.SecretAccessKey creds.SessionToken)
      | .error e => .error e
  | .error e => .error e

/-- C7: create_session returns the profile session when the profile
resolves; when the profile is not found it assumes the role
arn:aws:iam::{account_id}:role/{role} (with the on-disk credential cache
configured) and returns a session built from the returned temporary
credentials; and when the profile is not found and the role assumption
also fails, that failure propagates unchanged. -/
theorem create_session_spec (account_id role home : String)
    (profile_session : String → Except SessionError Unit)
    (assume_role : String → String → Except SessionError StsCredentials) :
    (profile_session role = .ok () →
      create_session account_id role home profile_session assume_role
        = .ok (.fromProfile role))
    ∧ (∀ creds, profile_session role = .error .profileNotFound →
        assume_role ("arn:aws:iam::" ++ account_id ++ ":role/" ++ role)
            ("AssumeRoleSession" ++ account_id) = .ok creds →
        create_session account_id role home profile_session assume_role
          = .ok (.fromAssumedRole (home ++ "/.cache")
              creds.AccessKeyId creds.SecretAccessKey creds.SessionToken))
    ∧ (∀ e, profile_session role = .error .profileNotFound →
        assume_role ("arn:aws:iam::" ++ account_id ++ ":role/" ++ role)
            ("AssumeRoleSession" ++ account_id) = .error e →
        create_session account_id role home profile_session assume_role = .error e) := by
  refine ⟨?_, ?_, ?_⟩
  · intro h
    simp [create_session, h]
  · intro creds h1 h2
    simp [create_session, h1, h2]
  · intro e h1 h2
    simp [create_session, h1, h2]

def ps0 : String → Except SessionError Unit := fun _ => .error .profileNotFound

def ar0 : String → String → Except SessionError StsCredentials :=
  fun _ _ => .ok { AccessKeyId := "AKIA", SecretAccessKey := "SECRET", SessionToken := "TOKEN" }

theorem create_session_spec_witness :
    create_session "123456789012" "inventory-role" "/home/user" ps0 ar0
      = .ok (.fromAssumedRole "/home/user/.cache" "AKIA" "SECRET" "TOKEN") :=
  (create_session_spec "123456789012" "inventory-role" "/home/user" ps0 ar0).2.1
    { AccessKeyId := "AKIA", SecretAccessKey := "SECRET", SessionToken := "TOKEN" } rfl rfl

/-
JSON serialization: res/utils.py, datetime_converter and
json_datetime_converter.  A Python value handed to json.dumps is modelled
by JValue; the result of json.dumps(json_text, default=datetime_converter)
is modelled by the JSON value the emitted text denotes.
-/

/-- A Python datetime, as returned by the AWS SDK. -/
structure PyDatetime where
  year : Nat
  month : Nat
  day : Nat
  hour : Nat
  minute : Nat
  second : Nat
deriving DecidableEq

def pad2 (n : Nat) : String := if n < 10 then "0" ++ toString n else toString n

/-- str(datetime): the "YYYY-MM-DD HH:MM:SS" form produced by
dt.__str__() in datetime_converter. -/
def PyDatetime.toStr (d : PyDatetime) : String :=
  toString d.year ++ "-" ++ pad2 d.month ++ "-" ++ pad2 d.day ++ " "
    ++ pad2 d.hour ++ ":" ++ pad2 d.minute ++ ":" ++ pad2 d.second

/-- A Python value handed to json.dumps: the JSON-native types, datetime
objects returned by the AWS SDK, and any other non-serializable object
(modelled abstractly by a numeric tag). -/
inductive JValue where
  | jnull
  | jbool (b : Bool)
  | jnum (n : Int)
  | jstr (s : String)
  | jarr (xs : List JValue)
  | jobj (fields : List (String × JValue))
  | jdatetime (d : PyDatetime)
  | jother (tag : Nat)

/-- res/utils.py datetime_converter: returns str(dt) when the argument is
a datetime, and falls off the end (returning None) for anything else. -/
def datetime_converter : JValue → Option String
  | .jdatetime dt => some dt.toStr
  | _ => none

mutual

/-- res/utils.py json_datetime_converter, modelled by the JSON value that
json.dumps(json_text, default=datetime_converter) emits: JSON-native
values pass through, containers recurse, and any other object o is
replaced by the serialization of datetime_converter(o) — the str form for
a datetime, and null (the serialization of the returned None) for any
other non-serializable value. -/
def json_datetime_converter : JValue → JValue
  | .jnull => .jnull
  | .jbool b => .jbool b
  | .jnum n => .jnum n
  | .jstr s => .jstr s
  | .jarr xs => .jarr (jdc_list xs)
  | .jobj fs => .jobj (jdc_fields fs)
  | .jdatetime dt =>
      match datetime_converter (.jdatetime dt) with
      | some s => .jstr s
      | none => .jnull
  | .jother t =>
      match datetime_converter (.jother t) with
      | some s => .jstr s
      | none => .jnull

def jdc_list : List JValue → List JValue
  | [] => []
  | x :: xs => json_datetime_converter x :: jdc_list xs

def jdc_fields : List (String × JValue) → List (String × JValue)
  | [] => []
  | (k, v) :: fs => (k, json_datetime_converter v) :: jdc_fields fs

end

mutual

/-- True when a value contains no datetime and no other non-JSON-native
object, i.e. it is already in serialized (string-timestamp) form. -/
def noRich : JValue → Bool
  | .jnull => true
  | .jbool _ => true
  | .jnum _ => true
  | .jstr _ => true
  | .jarr xs => noRich_list xs
  | .jobj fs => noRich_fields fs
  | .jdatetime _ => false
  | .jother _ => false

def noRich_list : List JValue → Bool
  | [] => true
  | x :: xs => noRich x && noRich_list xs

def noRich_fields : List (String × JValue) → Bool
  | [] => true
  | (_, v) :: fs => noRich v && noRich_fields fs

end

mutual

theorem noRich_jdc : ∀ v : JValue, noRich (json_datetime_converter v) = true
  | .jnull => rfl
  | .jbool _ => rfl
  | .jnum _ => rfl
  | .jstr _ => rfl
  | .jarr xs => by
      simp only [json_datetime_converter, noRich]
      exact noRich_jdc_list xs
  | .jobj fs => by
      simp only [json_datetime_converter, noRich]
      exact noRich_jdc_fields fs
  | .jdatetime _ => rfl
  | .jother _ => rfl

theorem noRich_jdc_list : ∀ xs : List JValue, noRich_list (jdc_list xs) = true
  | [] => rfl
  | x :: xs => by
      simp only [jdc_list, noRich_list, Bool.and_eq_true]
      exact ⟨noRich_jdc x, noRich_jdc_list xs⟩

theorem noRich_jdc_fields : ∀ fs : List (String × JValue), noRich_fields (jdc_fields fs) = true
  | [] => rfl
  | (_, v) :: fs => by
      simp only [jdc_fields, noRich_fields, Bool.and_eq_true]
      exact ⟨noRich_jdc v, noRich_jdc_fields fs⟩

end

mutual

theorem jdc_id : ∀ v : JValue, noRich v = true → json_datetime_converter v = v
  | .jnull, _ => rfl
  | .jbool _, _ => rfl
  | .jnum _, _ => rfl
  | .jstr _, _ => rfl
  | .jarr xs, h => by
      simp only [noRich] at h
      simp only [json_datetime_converter, jdc_id_list xs h]
  | .jobj fs, h => by
      simp only [noRich] at h
      simp only [json_datetime_converter, jdc_id_fields fs h]
  | .jdatetime _, h => by simp [noRich] at h
  | .jother _, h => by simp [noRich] at h

theorem jdc_id_list : ∀ xs : List JValue, noRich_list xs = true → jdc_list xs = xs
  | [], _ => rfl
  | x :: xs, h => by
      simp only [noRich_list, Bool.and_eq_true] at h
      simp only [jdc_list, jdc_id x h.1, jdc_id_list xs h.2]

theorem jdc_id_fields :
    ∀ fs : List (String × JValue), noRich_fields fs = true → jdc_fields fs = fs
  | [], _ => rfl
  | (k, v) :: fs, h => by
      simp only [noRich_fields, Bool.and_eq_true] at h
      simp only [jdc_fields, jdc_id v h.1, jdc_id_fields fs h.2]

end

/-- C8: json_datetime_converter maps every datetime value to its string
form — a rich datetime (or any other non-native object) never survives
serialization — and the normalization is idempotent on the string form:
serializing a document whose timestamp values are already strings yields
it back unchanged. -/
theorem json_datetime_converter_normalizes :
    (∀ d : PyDatetime, json_datetime_converter (.jdatetime d) = .jstr d.toStr)
    ∧ (∀ v : JValue, noRich (json_datetime_converter v) = true)
    ∧ (∀ v : JValue, noRich v = true → json_datetime_converter v = v)
    ∧ (∀ v : JValue,
        json_datetime_converter (json_datetime_converter v) = json_datetime_converter v) :=
  ⟨fun _ => rfl, noRich_jdc, jdc_id, fun v => jdc_id _ (noRich_jdc v)⟩

def dt0 : PyDatetime :=
  { year := 2021, month := 3, day := 5, hour := 7, minute := 9, second := 11 }

theorem json_datetime_converter_normalizes_witness :
    json_datetime_converter (.jstr "2021-03-05 07:09:11") = .jstr "2021-03-05 07:09:11"
    ∧ json_datetime_converter (.jdatetime dt0) = .jstr dt0.toStr
    ∧ noRich (json_datetime_converter (.jarr [.jdatetime dt0, .jnum 3])) = true :=
  ⟨json_datetime_converter_normalizes.2.2.1 _ (by simp [noRich]),
   json_datetime_converter_normalizes.1 dt0,
   json_datetime_converter_normalizes.2.1 _⟩

/-- C10: datetime_converter returns the string form only for datetime
inputs and None for every non-datetime input, so json.dumps with it as
default serializes any non-datetime value that JSON cannot natively
encode as null instead of raising a serialization error. -/
theorem datetime_converter_default_null :
    (∀ d : PyDatetime, datetime_converter (.jdatetime d) = some d.toStr)
    ∧ (∀ v : JValue, (∀ d : PyDatetime, v ≠ .jdatetime d) → datetime_converter v = none)
    ∧ (∀ t : Nat, json_datetime_converter (.jother t) = .jnull)
    ∧ (∀ t : Nat, json_datetime_converter (.jarr [.jother t]) = .jarr [.jnull]) := by
  refine ⟨fun _ => rfl, ?_, fun _ => rfl, ?_⟩
  · intro v h
    cases v with
    | jdatetime d => exact absurd rfl (h d)
    | jnull => rfl
    | jbool b => rfl
    | jnum n => rfl
    | jstr s => rfl
    | jarr xs => rfl
    | jobj fs => rfl
    | jother t => rfl
  · intro t
    simp [json_datetime_converter, jdc_list, datetime_converter]

theorem datetime_converter_default_null_witness :
    datetime_converter (.jstr "not a datetime") = none
    ∧ json_datetime_converter (.jother 7) = .jnull :=
  ⟨datetime_converter_default_null.2.1 (.jstr "not a datetime") (fun _ h => JValue.noConfusion h),
   datetime_converter_default_null.2.2.1 7⟩

/-
Elasticsearch and Kinesis inventories: res/analytics.py.  The enumerator
output (records tagged with RegionName, each carrying the detail block the
tag loop reads) is the input; the per-region tagging client is modelled by
an oracle from (region, resource identifier) to the returned tag list.
-/

/-- The DomainStatus detail block merged into an Elasticsearch record by
the enumerator; the tag loop reads its ARN. -/
structure EsDomainStatus where
  ARN : String
deriving DecidableEq

/-- An Elasticsearch record as produced by the enumerator in
get_es_inventory. -/
structure EsDomain where
  RegionName : String
  DomainStatus : EsDomainStatus
  TagList : Option (List AwsTag) := none
  payload : Nat := 0
deriving DecidableEq

/-- res/analytics.py get_es_inventory after the enumerator call: in the
source, the loop over clusters (line 65) is indented OUTSIDE the loop over
the region groups (line 60), so when it runs, region / clusters / es hold
the values of the LAST region group, and only the clusters of that group
are tagged (with the client of the last region) and appended to the returned
inventory. -/
def get_es_inventory (cluster_list : List EsDomain)
    (list_tags : String → String → List AwsTag) : List EsDomain :=
  if cluster_list.length > 0 then
    match (resources_by_region (fun c => c.RegionName) cluster_list).getLast? with
    | some rg =>
        rg.2.map (fun cluster =>
          { cluster with TagList := some (list_tags rg.1 cluster.DomainStatus.ARN) })
    | none => []
  else []

/-- The StreamDescription detail block merged into a Kinesis record by the
enumerator; the tag loop reads its StreamName. -/
structure KinesisStreamDescription where
  StreamName : String
deriving DecidableEq

/-- A Kinesis record as produced by the enumerator in
get_kinesis_inventory. -/
structure KinesisStream where
  RegionName : String
  StreamDescription : KinesisStreamDescription
  Tags : Option (List AwsTag) := none
  payload : Nat := 0
deriving DecidableEq

/-- res/analytics.py get_kinesis_inventory after the enumerator call: same
dedentation as get_es_inventory (line 277 sits outside the region loop at
line 272), so only the streams of the last region group are tagged and
returned. -/
def get_kinesis_inventory (stream_list : List KinesisStream)
    (list_tags_for_stream : String → String → List AwsTag) : List KinesisStream :=
  if stream_list.length > 0 then
    match (resources_by_region (fun s => s.RegionName) stream_list).getLast? with
    | some rg =>
        rg.2.map (fun stream =>
          { stream with
            Tags := some (list_tags_for_stream rg.1 stream.StreamDescription.StreamName) })
    | none => []
  else []

def esA : EsDomain := { RegionName := "eu-west-1", DomainStatus := { ARN := "arn:es:eu1" } }

def esB : EsDomain := { RegionName := "us-east-1", DomainStatus := { ARN := "arn:es:us1" } }

def ksA : KinesisStream :=
  { RegionName := "eu-west-1", StreamDescription := { StreamName := "stream-eu" } }

def ksB : KinesisStream :=
  { RegionName := "us-east-1", StreamDescription := { StreamName := "stream-us" } }

/-- C1 (refuted at a concrete input): with one Elasticsearch domain
fetched in eu-west-1 and one in us-east-1, get_es_inventory returns only
the us-east-1 record — the eu-west-1 record fetched by the enumerator is
discarded, so not every fetched record appears in the returned inventory —
and reversing the region order changes the returned record set.  The same
holds for get_kinesis_inventory. -/
theorem es_kinesis_drop_fetched_records :
    get_es_inventory [esA, esB] (fun _ _ => []) = [{ esB with TagList := some [] }]
    ∧ (get_es_inventory [esA, esB] (fun _ _ => [])).length = 1
    ∧ (∀ o ∈ get_es_inventory [esA, esB] (fun _ _ => []), o.RegionName ≠ "eu-west-1")
    ∧ get_es_inventory [esB, esA] (fun _ _ => []) = [{ esA with TagList := some [] }]
    ∧ get_kinesis_inventory [ksA, ksB] (fun _ _ => []) = [{ ksB with Tags := some [] }] := by
  refine ⟨rfl, rfl, ?_, rfl, rfl⟩
  decide

/-
SNS inventory: res/integration.py.
-/

/-- An SNS topic record as produced by the enumerator in
get_sns_inventory_topics. -/
structure SnsTopic where
  RegionName : String
  TopicArn : String
  Tags : Option (List AwsTag) := none
  payload : Nat := 0
deriving DecidableEq

/-- A platform-application record from the enumerator (not inspected by
the code). -/
structure SnsPlatformApplication where
  RegionName : String
  payload : Nat := 0
deriving DecidableEq

/-- The Inventory Document get_sns_inventory assembles: the topics
sequence under key topics and the platform applications under key
applications. -/
structure SnsInventory where
  topics : List SnsTopic
  applications : List SnsPlatformApplication
deriving DecidableEq

/-- res/integration.py get_sns_inventory_topics: the per-region tag loop,
correctly nested here (unlike analytics.py): every topic is tagged with
the tags fetched for its own TopicArn in its own region and appended. -/
def get_sns_inventory_topics (topic_list : List SnsTopic)
    (list_tags_for_resource : String → String → List AwsTag) : List SnsTopic :=
  if topic_list.length > 0 then
    (resources_by_region (fun t => t.RegionName) topic_list).foldl
      (fun inventory rg =>
        inventory ++ rg.2.map (fun topic =>
          { topic with Tags := some (list_tags_for_resource rg.1 topic.TopicArn) }))
      []
  else []

/-- res/integration.py get_sns_inventory: assigns the topics and
applications entries of sns_inventory, but the function body has no
return statement, so the Python function returns None.  The applications
enumerator call is modelled by its result being passed in. -/
def get_sns_inventory (topic_list : List SnsTopic)
    (applications : List SnsPlatformApplication)
    (list_tags_for_resource : String → String → List AwsTag) : Option SnsInventory :=
  let _sns_inventory : SnsInventory :=
    { topics := get_sns_inventory_topics topic_list list_tags_for_resource
      applications := applications }
  none

/-- C2 (refuted on every input): get_sns_inventory never returns the
Inventory Document it assembles; the source function body lacks a return
statement, so the call evaluates to None for every input. -/
theorem get_sns_inventory_always_none :
    ∀ (topic_list : List SnsTopic) (applications : List SnsPlatformApplication)
      (oracle : String → String → List AwsTag),
      get_sns_inventory topic_list applications oracle = none :=
  fun _ _ _ => rfl

/-
Route 53 zones, load balancers and ElastiCache clusters:
res/network.py and res/db.py.  The enumerator output is the input; the
tagging APIs are oracles.
-/

/-- A hosted zone as listed by list_hosted_zones; the post-pass reads its
Id and may attach Tags. -/
structure HostedZone where
  Id : String
  Tags : Option (List AwsTag) := none
  payload : Nat := 0
deriving DecidableEq

/-- One entry of a list_tags_for_resources response (ResourceTagSets). -/
structure ResourceTagSet where
  ResourceId : String
  Tags : List AwsTag
deriving DecidableEq

/-- Python str.split with an explicit one-character separator, on the
character list of the string: splitting never drops empty fields, and the
empty string splits to one empty field. -/
def split_chars (sep : Char) : List Char → List (List Char)
  | [] => [[]]
  | c :: cs =>
      match split_chars sep cs, decide (c = sep) with
      | rest, true => [] :: rest
      | [], false => [[c]]
      | r :: rs, false => (c :: r) :: rs

/-- network.py line 248 / 253: z["Id"].split("/")[2].  Hosted-zone ids
have the form /hostedzone/ZONEID, so the index-2 component is the bare
zone id. -/
def zone_id_third (id : String) : String :=
  ((split_chars '/' id.data).map (fun cs => String.mk cs)).getD 2 ""

/-- Body of the inner correlation loops of get_route53_inventory_zones
(lines 251-254): a zone receives the Tags of a ResourceTagSet exactly when
the ResourceId of that response equals the third path component of the zone
Id. -/
def zone_step (zone_tags : ResourceTagSet) (zone : HostedZone) : HostedZone :=
  if zone_id_third zone.Id = zone_tags.ResourceId then
    { zone with Tags := some zone_tags.Tags }
  else zone

/-- Applying the ResourceTagSets of one (or more) chunk responses to the
whole zone inventory, in response order. -/
def zone_apply_tags (inv : List HostedZone) (chunk_tags : List ResourceTagSet) :
    List HostedZone :=
  chunk_tags.foldl (fun inv zt => inv.map (zone_step zt)) inv

/-- The chunk loop of get_route53_inventory_zones (lines 244-254): one
list_tags_for_resources call per chunk of 10 zones (the second component
counts those calls), each response correlated back over the whole
inventory. -/
def route53_chunks_pass (oracle : List String → List ResourceTagSet) :
    List (List HostedZone) → List HostedZone → List HostedZone × Nat
  | [], inv => (inv, 0)
  | chunk :: rest, inv =>
      let chunk_tags := oracle (chunk.map (fun z => zone_id_third z.Id))
      let r := route53_chunks_pass oracle rest (zone_apply_tags inv chunk_tags)
      (r.1, r.2 + 1)

/-- res/network.py get_route53_inventory_zones after the enumerator call:
when any zone was listed, chunk the zones by 10 and run the tag loop;
otherwise return the inventory as is with no tagging call. -/
def get_route53_inventory_zones (inventory : List HostedZone)
    (oracle : List String → List ResourceTagSet) : List HostedZone × Nat :=
  if inventory.length > 0 then
    route53_chunks_pass oracle (chunks_list inventory 10) inventory
  else (inventory, 0)

theorem route53_chunks_pass_count (oracle : List String → List ResourceTagSet) :
    ∀ (cs : List (List HostedZone)) (inv : List HostedZone),
      (route53_chunks_pass oracle cs inv).2 = cs.length := by
  intro cs
  induction cs with
  | nil => intro inv; rfl
  | cons c cs ih => intro inv; simp [route53_chunks_pass, ih]

theorem route53_chunks_pass_inv (oracle : List String → List ResourceTagSet) :
    ∀ (cs : List (List HostedZone)) (inv : List HostedZone),
      (route53_chunks_pass oracle cs inv).1
        = zone_apply_tags inv
            ((cs.map (fun chunk => oracle (chunk.map (fun z => zone_id_third z.Id)))).flatten) := by
  intro cs
  induction cs with
  | nil => intro inv; rfl
  | cons c cs ih =>
    intro inv
    simp only [route53_chunks_pass, ih, List.map_cons, List.flatten_cons]
    unfold zone_apply_tags
    rw [List.foldl_append]

/-- The service argument of _retrieve_lb_tags (only ever "elb" or
"elbv2"). -/
inductive LbService where
  | elb
  | elbv2
deriving DecidableEq

/-- A load balancer record as produced by the enumerator (elb records use
LoadBalancerName as join key, elbv2 records LoadBalancerArn). -/
structure LoadBalancerRec where
  RegionName : String
  LoadBalancerName : String
  LoadBalancerArn : String
  Tags : Option (List AwsTag) := none
  payload : Nat := 0
deriving DecidableEq

/-- One entry of a describe_tags response (TagDescriptions). -/
structure TagDescription where
  LoadBalancerName : String
  ResourceArn : String
  Tags : Option (List AwsTag) := none
deriving DecidableEq

/-- The join_key selected at network.py lines 345-352. -/
def lb_join_key : LbService → LoadBalancerRec → String
  | .elb, lb => lb.LoadBalancerName
  | .elbv2, lb => lb.LoadBalancerArn

/-- The tag_key selected at network.py lines 345-352. -/
def lb_tag_key : LbService → TagDescription → String
  | .elb, td => td.LoadBalancerName
  | .elbv2, td => td.ResourceArn

/-- The update of network.py line 364: lb["Tags"] = lb_tags.get("Tags", []). -/
def lb_apply_td (lb : LoadBalancerRec) (lb_tags : TagDescription) : LoadBalancerRec :=
  { lb with Tags := some (lb_tags.Tags.getD []) }

/-- The region_tags accumulation of network.py lines 356-359: one
describe_tags call per chunk of 20 join keys, responses concatenated. -/
def lb_region_tags (oracle : String → List String → List TagDescription)
    (region : String) (keys : List String) : List TagDescription :=
  (chunks_list keys 20).foldl (fun acc chunk => acc ++ oracle region chunk) []

/-- The correlation loops of network.py lines 361-364: for each
TagDescription of the region, every load balancer whose join key equals
the tag key of the response receives the tags of that response. -/
def lb_correlate (service : LbService) (region_tags : List TagDescription)
    (lbs : List LoadBalancerRec) : List LoadBalancerRec :=
  region_tags.foldl
    (fun lbs lb_tags =>
      lbs.map (fun lb =>
        if lb_join_key service lb = lb_tag_key service lb_tags
        then lb_apply_td lb lb_tags else lb))
    lbs

/-- res/network.py _retrieve_lb_tags: group the listed load balancers by
region, fetch tags in chunks of 20, correlate the responses of each
region to the load balancers of that region and concatenate the groups.  The second
component records, per region, how many describe_tags calls were issued
(one per chunk). -/
def _retrieve_lb_tags (service : LbService) (lb_list : List LoadBalancerRec)
    (oracle : String → List String → List TagDescription) :
    List LoadBalancerRec × List (String × Nat) :=
  if lb_list.length > 0 then
    (resources_by_region (fun lb => lb.RegionName) lb_list).foldl
      (fun acc rg =>
        (acc.1 ++ lb_correlate service
            (lb_region_tags oracle rg.1 (rg.2.map (lb_join_key service))) rg.2,
         acc.2 ++ [(rg.1, (chunks_list (rg.2.map (lb_join_key service)) 20).length)]))
      ([], [])
  else ([], [])

/-- One entry of a resourcegroupstaggingapi get_resources response
(ResourceTagMappingList). -/
structure ResourceTagMapping where
  ResourceARN : String
  Tags : Option (List AwsTag) := none
deriving DecidableEq

/-- An ElastiCache cluster record as produced by the enumerator. -/
structure CacheCluster where
  RegionName : String
  ARN : String
  TagList : Option (List AwsTag) := none
  payload : Nat := 0
deriving DecidableEq

/-- Per-cluster body of the loop in get_elasticache_inventory_clusters
(db.py lines 250-262): one get_resources call keyed by the own ARN of
the cluster; when the returned ResourceTagMappingList is non-empty, the
tags of the first mapping are attached (extra entries only produce a warning); the
cluster is appended either way. -/
def ec_tag_cluster (resource_tag_mapping_list : List ResourceTagMapping)
    (cluster : CacheCluster) : CacheCluster :=
  match resource_tag_mapping_list with
  | [] => cluster
  | m :: _ => { cluster with TagList := some (m.Tags.getD []) }

/-- res/db.py get_elasticache_inventory_clusters after the enumerator
call: group clusters by region and tag each cluster from the response for
its own ARN. -/
def get_elasticache_inventory_clusters (cluster_list : List CacheCluster)
    (get_resources : String → String → List ResourceTagMapping) : List CacheCluster :=
  if cluster_list.length > 0 then
    (resources_by_region (fun c => c.RegionName) cluster_list).foldl
      (fun inventory rg =>
        inventory ++ rg.2.map (fun cluster =>
          ec_tag_cluster (get_resources rg.1 cluster.ARN) cluster))
      []
  else []

theorem resources_by_region_nil (regionOf : α → String) :
    resources_by_region regionOf ([] : List α) = [] := rfl

/-- C3: the chunked tag post-passes issue exactly ceil(N/K) tagging calls
— K = 10 in get_route53_inventory_zones and K = 20 per region group in
_retrieve_lb_tags — and the chunking partitions the listed items: the
concatenation of the chunks is the input list itself, so every listed
key of every listed item appears in exactly one chunk. -/
theorem chunked_tag_call_counts (inventory : List HostedZone)
    (zoracle : List String → List ResourceTagSet) (service : LbService)
    (lb_list : List LoadBalancerRec)
    (lboracle : String → List String → List TagDescription) :
    (get_route53_inventory_zones inventory zoracle).2 = (inventory.length + 9) / 10
    ∧ (chunks_list inventory 10).flatten = inventory
    ∧ (_retrieve_lb_tags service lb_list lboracle).2
        = (resources_by_region (fun lb => lb.RegionName) lb_list).map
            (fun rg => (rg.1, (rg.2.length + 19) / 20))
    ∧ (∀ rg ∈ resources_by_region (fun lb => lb.RegionName) lb_list,
        (chunks_list (rg.2.map (lb_join_key service)) 20).flatten
          = rg.2.map (lb_join_key service)) := by
  refine ⟨?_, chunks_list_join inventory 10 (by omega), ?_, ?_⟩
  · unfold get_route53_inventory_zones
    split
    · rw [route53_chunks_pass_count, chunks_list_length inventory 10 (by omega)]
      have h9 : inventory.length + 10 - 1 = inventory.length + 9 := by omega
      rw [h9]
    · next h =>
      have hnil : inventory = [] := by
        cases inventory with
        | nil => rfl
        | cons a t => simp at h
      subst hnil
      rfl
  · unfold _retrieve_lb_tags
    split
    · rw [foldl_append_pair
        (fun rg => lb_correlate service
          (lb_region_tags lboracle rg.1 (rg.2.map (lb_join_key service))) rg.2)
        (fun rg => [(rg.1, (chunks_list (rg.2.map (lb_join_key service)) 20).length)])
        (resources_by_region (fun lb => lb.RegionName) lb_list) ([], [])]
      simp only [List.nil_append, flatten_map_singleton]
      apply List.map_congr_left
      intro rg _
      rw [chunks_list_length (rg.2.map (lb_join_key service)) 20 (by omega), List.length_map]
      have h19 : rg.2.length + 20 - 1 = rg.2.length + 19 := by omega
      rw [h19]
    · next h =>
      have hnil : lb_list = [] := by
        cases lb_list with
        | nil => rfl
        | cons a t => simp at h
      subst hnil
      rfl
  · intro rg _
    exact chunks_list_join (rg.2.map (lb_join_key service)) 20 (by omega)

def lbW : LoadBalancerRec :=
  { RegionName := "us-east-1", LoadBalancerName := "web", LoadBalancerArn := "arn:lb:web" }

def zoneW : HostedZone := { Id := "/hostedzone/Z1" }

theorem chunked_tag_call_counts_witness :
    (get_route53_inventory_zones [zoneW] (fun _ => [])).2 = 1
    ∧ (_retrieve_lb_tags .elb [lbW] (fun _ _ => [])).2 = [("us-east-1", 1)]
    ∧ (chunks_list ([lbW].map (lb_join_key .elb)) 20).flatten
        = [lbW].map (lb_join_key .elb) := by
  have h := chunked_tag_call_counts [zoneW] (fun _ => []) .elb [lbW] (fun _ _ => [])
  refine ⟨?_, ?_, ?_⟩
  · rw [h.1]
    rfl
  · rw [h.2.2.1]
    rfl
  · exact h.2.2.2 ("us-east-1", [lbW]) (by decide)

theorem lb_correlate_get (service : LbService) (rts : List TagDescription)
    (lbs : List LoadBalancerRec) (i : Nat) (lb : LoadBalancerRec)
    (hlb : lbs[i]? = some lb) :
    ∃ o, (lb_correlate service rts lbs)[i]? = some o
      ∧ (o = lb ∨ ∃ td ∈ rts, lb_join_key service lb = lb_tag_key service td
            ∧ o = lb_apply_td lb td)
      ∧ ((∀ td ∈ rts, lb_join_key service lb ≠ lb_tag_key service td) → o = lb) := by
  have hfold :
      (lb_correlate service rts lbs)[i]?
        = (lbs[i]?).map (fun x =>
            tag_fold (lb_join_key service) (lb_tag_key service) lb_apply_td rts x) :=
    foldl_map_get_opt
      (fun lb_tags lb =>
        if lb_join_key service lb = lb_tag_key service lb_tags
        then lb_apply_td lb lb_tags else lb)
      rts lbs i
  rw [hlb] at hfold
  simp only [Option.map_some'] at hfold
  have hc := tag_fold_cases (lb_join_key service) (lb_tag_key service) lb_apply_td
    (fun x r => by cases service <;> rfl)
    (fun x r r' => rfl) rts lb
  exact ⟨_, hfold, hc.1, hc.2⟩

theorem zone_apply_tags_get (cts : List ResourceTagSet) (inv : List HostedZone)
    (i : Nat) (z : HostedZone) (hz : inv[i]? = some z) :
    ∃ o, (zone_apply_tags inv cts)[i]? = some o
      ∧ (o = z ∨ ∃ zt ∈ cts, zone_id_third z.Id = zt.ResourceId
            ∧ o = { z with Tags := some zt.Tags })
      ∧ ((∀ zt ∈ cts, zone_id_third z.Id ≠ zt.ResourceId) → o = z) := by
  have hfold :
      (zone_apply_tags inv cts)[i]?
        = (inv[i]?).map (fun x =>
            tag_fold (fun z => zone_id_third z.Id) (fun zt => zt.ResourceId)
              (fun z zt => { z with Tags := some zt.Tags }) cts x) :=
    foldl_map_get_opt zone_step cts inv i
  rw [hz] at hfold
  simp only [Option.map_some'] at hfold
  have hc := tag_fold_cases (fun z => zone_id_third z.Id) (fun zt => zt.ResourceId)
    (fun z zt => { z with Tags := some zt.Tags })
    (fun x r => rfl)
    (fun x r r' => rfl) cts z
  exact ⟨_, hfold, hc.1, hc.2⟩

theorem retrieve_lb_tags_structure (service : LbService) (lb_list : List LoadBalancerRec)
    (oracle : String → List String → List TagDescription) :
    (_retrieve_lb_tags service lb_list oracle).1
      = ((resources_by_region (fun lb => lb.RegionName) lb_list).map
          (fun rg => lb_correlate service
            (lb_region_tags oracle rg.1 (rg.2.map (lb_join_key service))) rg.2)).flatten := by
  unfold _retrieve_lb_tags
  split
  · rw [foldl_append_pair
      (fun rg => lb_correlate service
        (lb_region_tags oracle rg.1 (rg.2.map (lb_join_key service))) rg.2)
      (fun rg => [(rg.1, (chunks_list (rg.2.map (lb_join_key service)) 20).length)])
      (resources_by_region (fun lb => lb.RegionName) lb_list) ([], [])]
    rfl
  · next h =>
    have hnil : lb_list = [] := by
      cases lb_list with
      | nil => rfl
      | cons a t => simp at h
    subst hnil
    rfl

theorem route53_zones_structure (inventory : List HostedZone)
    (oracle : List String → List ResourceTagSet) :
    (get_route53_inventory_zones inventory oracle).1
      = zone_apply_tags inventory
          (((chunks_list inventory 10).map
            (fun chunk => oracle (chunk.map (fun z => zone_id_third z.Id)))).flatten) := by
  unfold get_route53_inventory_zones
  split
  · exact route53_chunks_pass_inv oracle _ inventory
  · next h =>
    have hnil : inventory = [] := by
      cases inventory with
      | nil => rfl
      | cons a t => simp at h
    subst hnil
    rfl

theorem elasticache_clusters_structure (cluster_list : List CacheCluster)
    (get_resources : String → String → List ResourceTagMapping) :
    get_elasticache_inventory_clusters cluster_list get_resources
      = ((resources_by_region (fun c => c.RegionName) cluster_list).map
          (fun rg => rg.2.map (fun c => ec_tag_cluster (get_resources rg.1 c.ARN) c))).flatten := by
  unfold get_elasticache_inventory_clusters
  split
  · rw [foldl_append_flatten
      (fun rg => rg.2.map (fun c => ec_tag_cluster (get_resources rg.1 c.ARN) c))
      (resources_by_region (fun c => c.RegionName) cluster_list) []]
    rw [List.nil_append]
  · next h =>
    have hnil : cluster_list = [] := by
      cases cluster_list with
      | nil => rfl
      | cons a t => simp at h
    subst hnil
    rfl

/-- C4: in every tag-correlation pass a record receives its Tags/TagList
only from a tag response whose join-key value equals the join-key value
of that record, and a record whose join key matches no response is
returned with its original fields unmodified rather than the call
failing: _retrieve_lb_tags is the concatenation of the per-region
correlations, in which every load balancer is either unchanged or updated
from a response with equal join key; get_route53_inventory_zones applies
the chunk responses to the zones by zone-id equality the same way; and
get_elasticache_inventory_clusters tags each cluster only from the
response for the own ARN of that cluster, keeping the cluster unchanged when
that response is empty. -/
theorem tag_correlation (service : LbService)
    (lb_list : List LoadBalancerRec)
    (lboracle : String → List String → List TagDescription)
    (inventory : List HostedZone) (zoracle : List String → List ResourceTagSet)
    (cluster_list : List CacheCluster)
    (get_resources : String → String → List ResourceTagMapping) :
    ((_retrieve_lb_tags service lb_list lboracle).1
      = ((resources_by_region (fun lb => lb.RegionName) lb_list).map
          (fun rg => lb_correlate service
            (lb_region_tags lboracle rg.1 (rg.2.map (lb_join_key service))) rg.2)).flatten)
    ∧ (∀ (rts : List TagDescription) (lbs : List LoadBalancerRec)
          (i : Nat) (lb : LoadBalancerRec),
        lbs[i]? = some lb →
        ∃ o, (lb_correlate service rts lbs)[i]? = some o
          ∧ (o = lb ∨ ∃ td ∈ rts, lb_join_key service lb = lb_tag_key service td
                ∧ o = lb_apply_td lb td)
          ∧ ((∀ td ∈ rts, lb_join_key service lb ≠ lb_tag_key service td) → o = lb))
    ∧ ((get_route53_inventory_zones inventory zoracle).1
        = zone_apply_tags inventory
            (((chunks_list inventory 10).map
              (fun chunk => zoracle (chunk.map (fun z => zone_id_third z.Id)))).flatten))
    ∧ (∀ (cts : List ResourceTagSet) (inv : List HostedZone) (i : Nat) (z : HostedZone),
        inv[i]? = some z →
        ∃ o, (zone_apply_tags inv cts)[i]? = some o
          ∧ (o = z ∨ ∃ zt ∈ cts, zone_id_third z.Id = zt.ResourceId
                ∧ o = { z with Tags := some zt.Tags })
          ∧ ((∀ zt ∈ cts, zone_id_third z.Id ≠ zt.ResourceId) → o = z))
    ∧ (get_elasticache_inventory_clusters cluster_list get_resources
        = ((resources_by_region (fun c => c.RegionName) cluster_list).map
            (fun rg => rg.2.map (fun c => ec_tag_cluster (get_resources rg.1 c.ARN) c))).flatten)
    ∧ (∀ (ms : List ResourceTagMapping) (c : CacheCluster),
        (ms = [] → ec_tag_cluster ms c = c)
        ∧ (∀ m rest, ms = m :: rest →
            ec_tag_cluster ms c = { c with TagList := some (m.Tags.getD []) })) := by
  refine ⟨retrieve_lb_tags_structure service lb_list lboracle,
    lb_correlate_get service,
    route53_zones_structure inventory zoracle,
    zone_apply_tags_get,
    elasticache_clusters_structure cluster_list get_resources,
    ?_⟩
  intro ms c
  constructor
  · intro h
    subst h
    rfl
  · intro m rest h
    subst h
    rfl

def lbX : LoadBalancerRec :=
  { RegionName := "eu-west-1", LoadBalancerName := "api", LoadBalancerArn := "arn:lb:api" }

def tdW : TagDescription :=
  { LoadBalancerName := "web", ResourceArn := "arn:lb:web",
    Tags := some [{ Key := "env", Value := "prod" }] }

def ccW : CacheCluster := { RegionName := "us-east-1", ARN := "arn:ec:redis1" }

def ztW : ResourceTagSet := { ResourceId := "ZOTHER", Tags := [] }

theorem tag_correlation_witness :
    (∃ o, (lb_correlate .elb [tdW] [lbW, lbX])[1]? = some o ∧ o = lbX)
    ∧ (∃ o, (zone_apply_tags [zoneW] [ztW])[0]? = some o ∧ o = zoneW)
    ∧ ec_tag_cluster [] ccW = ccW := by
  have h := tag_correlation .elb [lbW, lbX] (fun _ _ => []) [zoneW] (fun _ => [])
    [ccW] (fun _ _ => [])
  refine ⟨?_, ?_, ?_⟩
  · obtain ⟨o, h1, h2, h3⟩ := h.2.1 [tdW] [lbW, lbX] 1 lbX rfl
    exact ⟨o, h1, h3 (by decide)⟩
  · obtain ⟨o, h1, h2, h3⟩ := h.2.2.2.1 [ztW] [zoneW] 0 zoneW rfl
    exact ⟨o, h1, h3 (by decide)⟩
  · exact (h.2.2.2.2.2 [] ccW).1 rfl
